import Mathlib

/-!
Verification of the feature-construction and feature-selection core of
snips_nlu/intent_classifier/featurizer.py.

External collaborators (light tokenizer, normalizer, stemmer, stop-word and
word-cluster resources, builtin-entity predicate) are consumed through narrow
interfaces; they are embedded as fields of a `LangEnv` parameter, so every
theorem quantifies over them.  Python floats are embedded as rationals, Python
sets of strings as sorted duplicate-free lists, and Python dicts as association
lists.  A Python function that can raise is embedded as `Option` / `Except`.
-/

set_option allowUnsafeReducibility true

attribute [local semireducible] Rat.mul Rat.inv

namespace Snips

/-- Language resources and primitives the featurizer consumes through narrow
interfaces: tokenizer, normalizer, optional stemmer (absent models the
UnknownResource error), stop words, word clusters and the builtin-entity
predicate. -/
structure LangEnv where
  tokenize : String → List String
  normalize : String → String
  stem : Option (String → String)
  stopWords : List String
  clusterName : Option String
  clusters : String → String → Option String
  defaultSep : String
  isBuiltinEntity : String → Bool

/-- Sorting of a list of strings in nondecreasing order; embeds the Python
builtin sorted. -/
def sortStrings (l : List String) : List String :=
  List.insertionSort (· ≤ ·) l

/-- Canonical representation of a Python set of strings built from a list:
sorted and duplicate-free. -/
def setOfList (l : List String) : List String :=
  (sortStrings l).dedup

/-- Embeds _normalize_stem: normalize, then stem when a stemmer resource exists
for the language; a missing stemmer is a silent fallback to the normalized
form. -/
def normalizeStem (env : LangEnv) (text : String) : String :=
  let normalized := env.normalize text
  match env.stem with
  | some st => st normalized
  | none => normalized

/-- Embeds _entity_name_to_feature: a fixed marker followed by the
concatenation of the tokenized entity name. -/
def entityNameToFeature (env : LangEnv) (entityName : String) : String :=
  "entityfeature" ++ String.join (env.tokenize entityName)

/-- Modelled from the spec: get_all_ngrams (snips_nlu.slot_filler.features_utils,
not under src) yields every contiguous n-gram of the token sequence, each
joined with a single space. -/
def getAllNgrams (tokens : List String) : List String :=
  (List.range tokens.length).flatMap (fun i =>
    (List.range (tokens.length - i)).map (fun len =>
      String.intercalate " " ((tokens.drop i).take (len + 1))))

/-- Lookup in an association list embedding a Python dict lookup with default
empty list (dict.get(k, [])). -/
def lookupValues (d : List (String × List String)) (k : String) : List String :=
  match d.find? (fun kv => kv.1 == k) with
  | some kv => kv.2
  | none => []

/-- Embeds _get_word_cluster_features: when the language has a configured
cluster resource, look every n-gram of the raw tokens up (lowercased) in the
cluster mapping and keep the labels found. -/
def getWordClusterFeatures (env : LangEnv) (queryTokens : List String) : List String :=
  match env.clusterName with
  | none => []
  | some name =>
      (getAllNgrams queryTokens).filterMap (fun ngram =>
        env.clusters name ngram.toLower)

/-- Embeds _get_dataset_entities_features: accumulate, over every n-gram of the
normalized and stemmed tokens, the feature names the entity lexicon maps the
n-gram to. -/
def getDatasetEntitiesFeatures (lex : List (String × List String))
    (normalizedStemmedTokens : List String) : List String :=
  (getAllNgrams normalizedStemmedTokens).flatMap (fun ngram => lookupValues lex ngram)

/-- Embeds _preprocess_query: join the normalized+stemmed tokens with the
language default separator, then append the sorted entity features block and
the sorted word-cluster features block, each only when non-empty. -/
def preprocessQuery (env : LangEnv) (lex : List (String × List String))
    (query : String) : String :=
  let queryTokens := env.tokenize query
  let wordClustersFeatures := getWordClusterFeatures env queryTokens
  let normalizedStemmedTokens := queryTokens.map (normalizeStem env)
  let entitiesFeatures := getDatasetEntitiesFeatures lex normalizedStemmedTokens
  let features := String.intercalate env.defaultSep normalizedStemmedTokens
  let features :=
    if entitiesFeatures ≠ [] then
      features ++ " " ++ String.intercalate " " (sortStrings entitiesFeatures)
    else features
  if wordClustersFeatures ≠ [] then
    features ++ " " ++ String.intercalate " " (sortStrings wordClustersFeatures)
  else features

/-- Modelled from the spec: FeaturizerConfig (snips_nlu.pipeline.configs, not
under src) is an opaque set of named options, threaded through to the
vectorizer and serialized unchanged. -/
structure FeaturizerConfig where
  options : List (String × String)
deriving DecidableEq, Repr

/-- Dataset slice the featurizer consumes: per custom entity name, the list of
literal example utterances. -/
structure Dataset where
  entities : List (String × List String)
deriving DecidableEq, Repr

/-- State of a Featurizer instance.  The tfidf_vectorizer field holds the
fitted vocabulary (token to column index) and the IDF diagonal; `none` is the
untrained vectorizer (no vocabulary_ attribute). -/
structure Featurizer where
  language : String
  config : FeaturizerConfig
  tfidf_vectorizer : Option (List (String × Nat) × List ℚ)
  best_features : Option (List Nat)
  pvalue_threshold : ℚ
  entity_utterances_to_feature_names : Option (List (String × List String))
  unknown_words_replacement_string : Option String
deriving DecidableEq, Repr

/-- Embeds adding one feature name to a dict-of-sets entry
(utterances_to_features[u].add(feature)). -/
def dictAddFeature : List (String × List String) → String → String →
    List (String × List String)
  | [], k, v => [(k, [v])]
  | (k', vs) :: rest, k, v =>
      if k' = k then (k', setOfList (v :: vs)) :: rest
      else (k', vs) :: dictAddFeature rest k v

/-- Embeds merging a set of feature names into a dict-of-sets entry
(normalized_utterances_to_features[k].update(v) on a defaultdict of sets). -/
def dictMergeSet : List (String × List String) → String → List String →
    List (String × List String)
  | [], k, vs => [(k, setOfList vs)]
  | (k', vs') :: rest, k, vs =>
      if k' = k then (k', setOfList (vs' ++ vs)) :: rest
      else (k', vs') :: dictMergeSet rest k vs

/-- Embeds _get_utterances_to_features_names: map every literal utterance of
every non-builtin dataset entity to the set of synthesized feature names of the
entities it exemplifies. -/
def getUtterancesToFeaturesNames (env : LangEnv) (ds : Dataset) :
    List (String × List String) :=
  ds.entities.foldl (fun acc ent =>
    if env.isBuiltinEntity ent.1 then acc
    else ent.2.foldl (fun acc2 u => dictAddFeature acc2 u (entityNameToFeature env ent.1)) acc) []

/-- Embeds the first normalization pass of the entity lexicon built at the top
of Featurizer.fit: normalize+stem every key of the utterances-to-features
mapping and merge the value sets of keys that collide. -/
def normalizedLexicon (env : LangEnv) (ds : Dataset) : List (String × List String) :=
  (getUtterancesToFeaturesNames env ds).foldl
    (fun acc kv => dictMergeSet acc (normalizeStem env kv.1) kv.2) []

/-- Embeds the entity-lexicon construction at the top of Featurizer.fit:
normalize+stem every key of the utterances-to-features mapping, merge the
value sets, then pop the unknown-words sentinel key when present. -/
def computeLexicon (env : LangEnv) (unk : Option String) (ds : Dataset) :
    List (String × List String) :=
  let normalized := normalizedLexicon env ds
  match unk with
  | none => normalized
  | some s =>
      if normalized.any (fun kv => kv.1 == s) then
        normalized.filter (fun kv => !(kv.1 == s))
      else normalized

/-- Embeds np.min of the p-value vector (junk value 0 on the empty list, on
which the Python call raises). -/
def listMin : List ℚ → ℚ
  | [] => 0
  | x :: xs => xs.foldl min x

/-- Embeds lines 76-80 of fit: keep every column index with p-value strictly
below the threshold; when that list is empty, fall back to every index whose
p-value equals the global minimum. -/
def bestFeaturesStep12 (pval : List ℚ) (t : ℚ) : List Nat :=
  let best := (List.range pval.length).filter (fun i => decide (pval.getD i 0 < t))
  if best = [] then
    (List.range pval.length).filter (fun i => decide (pval.getD i 0 = listMin pval))
  else best

/-- Embeds lines 82-89 of fit: iterate over the selected indices and remove
from the selection every index whose vocabulary token is a stop word and whose
p-value exceeds half the threshold (list.remove erases the first occurrence). -/
def selectBestFeatures (pval : List ℚ) (t : ℚ) (word : Nat → String)
    (stop : List String) : List Nat :=
  let best := bestFeaturesStep12 pval t
  best.foldl (fun acc i =>
    if word i ∈ stop ∧ pval.getD i 0 > t / 2 then acc.erase i else acc) best

/-- Embeds Featurizer.fit as a state transformer.  The first component is the
state of the instance after the call; the second is the returned value, `none`
for the Python None returned on the all-empty-queries short circuit, otherwise
the instance itself.  The chi-squared p-value routine and the smoothed-IDF
weight formula are external numeric routines (scipy / sklearn) passed as
parameters chi2 and idfOf. -/
def Featurizer.fit (env : LangEnv) (chi2 : List (List ℚ) → List Nat → List ℚ)
    (idfOf : Nat → Nat → ℚ) (f : Featurizer) (dataset : Dataset)
    (queries : List String) (y : List Nat) : Featurizer × Option Featurizer :=
  let lex := computeLexicon env f.unknown_words_replacement_string dataset
  let f1 := { f with entity_utterances_to_feature_names := some lex }
  if queries.all (fun q => String.join (env.tokenize q) == "") then
    (f1, none)
  else
    let docs := (queries.map (fun q => preprocessQuery env lex q)).map env.tokenize
    let vocabTokens := setOfList docs.flatten
    let vocab := (List.range vocabTokens.length).map (fun i => (vocabTokens.getD i "", i))
    let idf := vocabTokens.map (fun tok =>
      idfOf docs.length (docs.countP (fun d => decide (tok ∈ d))))
    let X := docs.map (fun doc => (List.range vocabTokens.length).map (fun j =>
      (doc.count (vocabTokens.getD j "") : ℚ) * idf.getD j 0))
    let pval := chi2 X y
    let best := selectBestFeatures pval f.pvalue_threshold
      (fun i => vocabTokens.getD i "") env.stopWords
    let f2 := { f1 with tfidf_vectorizer := some (vocab, idf),
                        best_features := some best }
    (f2, some f2)

/-- Embeds Featurizer.transform: preprocess every query, map it into the fixed
vocabulary space weighting term counts by the stored IDF weights (the spec
formula for the vectorizer, values = term-frequency times IDF), and slice the
columns listed in best_features. -/
def Featurizer.transform (env : LangEnv) (f : Featurizer)
    (queries : List String) : List (List ℚ) :=
  let lex := f.entity_utterances_to_feature_names.getD []
  let vi := f.tfidf_vectorizer.getD ([], [])
  queries.map (fun q =>
    let toks := env.tokenize (preprocessQuery env lex q)
    (f.best_features.getD []).map (fun j =>
      ((vi.1.filter (fun kv => kv.2 == j)).map (fun kv => (toks.count kv.1 : ℚ))).sum
        * vi.2.getD j 0))

/-- Embeds Featurizer.fit_transform: call fit and invoke transform on whatever
fit returned; when fit returned None the attribute access on None raises, which
the Except error embeds. -/
def Featurizer.fit_transform (env : LangEnv)
    (chi2 : List (List ℚ) → List Nat → List ℚ) (idfOf : Nat → Nat → ℚ)
    (f : Featurizer) (dataset : Dataset) (queries : List String)
    (y : List Nat) : Except String (List (List ℚ)) :=
  match (f.fit env chi2 idfOf dataset queries y).2 with
  | none => Except.error "AttributeError: NoneType object has no attribute transform"
  | some g => Except.ok (g.transform env queries)

/-- Inner serialized dict for the vectorizer; each field is wrapped in an outer
Option embedding presence of the key, and an inner Option embedding a JSON
null value. -/
structure TfidfVectorizerDict where
  vocab : Option (Option (List (String × Nat)))
  idf_diag : Option (Option (List ℚ))
deriving DecidableEq, Repr

/-- Serialized snapshot dict produced by to_dict and consumed by from_dict;
each outer Option embeds presence of the key in the dict so that a missing key
(Python KeyError) is representable. -/
structure SnapshotDict where
  language_code : Option String
  tfidf_vectorizer : Option TfidfVectorizerDict
  best_features : Option (Option (List Nat))
  pvalue_threshold : Option ℚ
  entity_utterances_to_feature_names : Option (List (String × List String))
  config : Option FeaturizerConfig
  unknown_words_replacement_string : Option (Option String)
deriving DecidableEq, Repr

/-- Embeds Featurizer.to_dict.  When the vectorizer is fitted the vocabulary,
the IDF diagonal and the entity lexicon are serialized; otherwise vocab and
idf_diag are null and the lexicon is emitted empty.  The fitted branch iterates
the entity lexicon, so a fitted instance whose lexicon is None raises in
Python; that path is embedded as `none`. -/
def Featurizer.to_dict (f : Featurizer) : Option SnapshotDict :=
  match f.tfidf_vectorizer with
  | some vi =>
      match f.entity_utterances_to_feature_names with
      | some lex =>
          some { language_code := some f.language,
                 tfidf_vectorizer := some ⟨some (some vi.1), some (some vi.2)⟩,
                 best_features := some f.best_features,
                 pvalue_threshold := some f.pvalue_threshold,
                 entity_utterances_to_feature_names := some lex,
                 config := some f.config,
                 unknown_words_replacement_string :=
                   some f.unknown_words_replacement_string }
      | none => none
  | none =>
      some { language_code := some f.language,
             tfidf_vectorizer := some ⟨some none, some none⟩,
             best_features := some f.best_features,
             pvalue_threshold := some f.pvalue_threshold,
             entity_utterances_to_feature_names := some [],
             config := some f.config,
             unknown_words_replacement_string :=
               some f.unknown_words_replacement_string }

/-- Embeds _deserialize_tfidf_vectorizer: a null vocab yields an untrained
vectorizer; a non-null vocab requires the idf_diag key, whose entries become
the IDF diagonal.  No check relates the vocabulary size to the IDF length. -/
def deserializeTfidfVectorizer (d : TfidfVectorizerDict) :
    Except String (Option (List (String × Nat) × List ℚ)) := do
  let vocabField ← match d.vocab with
    | none => Except.error "KeyError: vocab"
    | some v => Except.ok v
  match vocabField with
  | none => Except.ok none
  | some vocab => do
      let idfField ← match d.idf_diag with
        | none => Except.error "KeyError: idf_diag"
        | some v => Except.ok v
      match idfField with
      | none => Except.error "TypeError: idf_diag is null"
      | some idf => Except.ok (some (vocab, idf))

/-- Concatenation of a base string with a non-empty block of sorted,
space-joined features; used to phrase the preprocessed-string structure the
way the spec states it. -/
def joinBlock (base : String) (feats : List String) : String :=
  if feats ≠ [] then base ++ " " ++ String.intercalate " " (sortStrings feats)
  else base

/-- Modelled from the spec: the preprocessed representation of one utterance is
the language-default-separator join of the normalized-then-stemmed tokens,
followed only when non-empty by a space and the space-join of the sorted entity
pseudo-token features found via n-gram lookup of the normalized+stemmed tokens
in the entity lexicon, followed only when non-empty by a space and the
space-join of the sorted word-cluster features found via case-insensitive
n-gram lookup of the raw unstemmed tokens. -/
def preprocessQuerySpec (env : LangEnv) (lex : List (String × List String))
    (query : String) : String :=
  let rawTokens := env.tokenize query
  let normStem := rawTokens.map (normalizeStem env)
  let entityFeats := (getAllNgrams normStem).flatMap (fun ngram => lookupValues lex ngram)
  let clusterFeats :=
    match env.clusterName with
    | none => []
    | some name => (getAllNgrams rawTokens).filterMap (fun ngram => env.clusters name ngram.toLower)
  joinBlock (joinBlock (String.intercalate env.defaultSep normStem) entityFeats) clusterFeats

/-- Embeds Featurizer.from_dict: read every required key (a missing key is a
Python KeyError, embedded as an error), rebuild the vectorizer from the
serialized vocabulary and IDF diagonal, and rehydrate the entity lexicon value
sequences back into sets. -/
def Featurizer.from_dict (d : SnapshotDict) : Except String Featurizer := do
  let language ← match d.language_code with
    | none => Except.error "KeyError: language_code"
    | some v => Except.ok v
  let config ← match d.config with
    | none => Except.error "KeyError: config"
    | some v => Except.ok v
  let tvDict ← match d.tfidf_vectorizer with
    | none => Except.error "KeyError: tfidf_vectorizer"
    | some v => Except.ok v
  let tfidf ← deserializeTfidfVectorizer tvDict
  let lexRaw ← match d.entity_utterances_to_feature_names with
    | none => Except.error "KeyError: entity_utterances_to_feature_names"
    | some v => Except.ok v
  let pv ← match d.pvalue_threshold with
    | none => Except.error "KeyError: pvalue_threshold"
    | some v => Except.ok v
  let bf ← match d.best_features with
    | none => Except.error "KeyError: best_features"
    | some v => Except.ok v
  let unk ← match d.unknown_words_replacement_string with
    | none => Except.error "KeyError: unknown_words_replacement_string"
    | some v => Except.ok v
  Except.ok { language := language,
              config := config,
              tfidf_vectorizer := tfidf,
              best_features := bf,
              pvalue_threshold := pv,
              entity_utterances_to_feature_names :=
                some (lexRaw.map (fun kv => (kv.1, setOfList kv.2))),
              unknown_words_replacement_string := unk }

/-- Splits a character list on spaces, dropping empty fragments; a structurally
recursive whitespace tokenizer for the concrete environment. -/
def splitOnSpaces : List Char → List Char → List String
  | [], cur => if cur.isEmpty then [] else [String.mk cur.reverse]
  | c :: rest, cur =>
      if c = ' ' then
        if cur.isEmpty then splitOnSpaces rest []
        else String.mk cur.reverse :: splitOnSpaces rest []
      else splitOnSpaces rest (c :: cur)

/-- Concrete language environment used to instantiate the theorems: whitespace
tokenizer, lowercasing normalizer, no stemmer, one stop word, no word
clusters. -/
def env0 : LangEnv :=
  { tokenize := fun s => splitOnSpaces s.data []
    normalize := fun s => s.toLower
    stem := none
    stopWords := ["the"]
    clusterName := none
    clusters := fun _ _ => none
    defaultSep := " "
    isBuiltinEntity := fun n => n == "snips/number" }

/-- Concrete fitted featurizer used to instantiate the theorems. -/
def F0 : Featurizer :=
  { language := "en"
    config := ⟨[]⟩
    tfidf_vectorizer := some ([("hello", 0), ("world", 1)], [1, 2])
    best_features := some [0, 1]
    pvalue_threshold := 2 / 5
    entity_utterances_to_feature_names := some [("the office", ["entityfeaturethe_office"])]
    unknown_words_replacement_string := some "unknownword" }

/-- Concrete dataset used to instantiate the theorems: one custom entity whose
examples include a literal equal to the unknown-words sentinel, and one builtin
entity. -/
def ds0 : Dataset :=
  ⟨[("the_office", ["the office", "unknownword"]), ("snips/number", ["one"])]⟩

/-- Serialized snapshot with every required key present but a two-entry
vocabulary paired with a single IDF weight. -/
def badSnapshot : SnapshotDict :=
  { language_code := some "en"
    tfidf_vectorizer := some ⟨some (some [("a", 0), ("b", 1)]), some (some [1])⟩
    best_features := some (some [0])
    pvalue_threshold := some 1
    entity_utterances_to_feature_names := some []
    config := some ⟨[]⟩
    unknown_words_replacement_string := some none }

/-! Helper lemmas about the list combinators the selection logic is built
from. -/

theorem mem_filter_range {n : Nat} {p : Nat → Bool} {i : Nat} :
    i ∈ (List.range n).filter p ↔ i < n ∧ p i = true := by
  simp [List.mem_filter, List.mem_range]

theorem getD_eq_get (l : List ℚ) (j : Nat) (hj : j < l.length) :
    l.getD j 0 = l.get ⟨j, hj⟩ := by
  simp [List.getD_eq_getElem?_getD, List.getElem?_eq_getElem hj]

theorem getD_mem (l : List ℚ) (j : Nat) (hj : j < l.length) : l.getD j 0 ∈ l := by
  rw [getD_eq_get l j hj]
  exact List.get_mem l j hj

theorem foldl_min_le_init : ∀ (xs : List ℚ) (a : ℚ), xs.foldl min a ≤ a := by
  intro xs
  induction xs with
  | nil => intro a; simp
  | cons x xs ih =>
      intro a
      calc (x :: xs).foldl min a = xs.foldl min (min a x) := by rw [List.foldl_cons]
        _ ≤ min a x := ih (min a x)
        _ ≤ a := min_le_left a x

theorem foldl_min_le_of_mem :
    ∀ (xs : List ℚ) (a x : ℚ), x ∈ xs → xs.foldl min a ≤ x := by
  intro xs
  induction xs with
  | nil => intro a x hx; cases hx
  | cons y ys ih =>
      intro a x hx
      rw [List.foldl_cons]
      rcases List.mem_cons.mp hx with h | h
      · calc ys.foldl min (min a y) ≤ min a y := foldl_min_le_init ys (min a y)
          _ ≤ y := min_le_right a y
          _ = x := h.symm
      · exact ih (min a y) x h

theorem foldl_min_mem_or :
    ∀ (xs : List ℚ) (a : ℚ), xs.foldl min a = a ∨ xs.foldl min a ∈ xs := by
  intro xs
  induction xs with
  | nil => intro a; exact Or.inl rfl
  | cons x xs ih =>
      intro a
      rw [List.foldl_cons]
      rcases ih (min a x) with h | h
      · rcases min_choice a x with hm | hm
        · exact Or.inl (h.trans hm)
        · exact Or.inr (by rw [h, hm]; exact List.mem_cons_self x xs)
      · exact Or.inr (List.mem_cons_of_mem x h)

theorem listMin_le {l : List ℚ} {x : ℚ} (hx : x ∈ l) : listMin l ≤ x := by
  cases l with
  | nil => cases hx
  | cons y ys =>
      rcases List.mem_cons.mp hx with h | h
      · subst h
        exact foldl_min_le_init ys x
      · exact foldl_min_le_of_mem ys y x h

theorem listMin_mem {l : List ℚ} (h : l ≠ []) : listMin l ∈ l := by
  cases l with
  | nil => exact absurd rfl h
  | cons y ys =>
      rcases foldl_min_mem_or ys y with hm | hm
      · rw [listMin, hm]; exact List.mem_cons_self y ys
      · exact List.mem_cons_of_mem y hm

theorem foldl_erase_eq_filter {α : Type} [DecidableEq α] (P : α → Prop)
    [DecidablePred P] :
    ∀ (l acc : List α), acc.Nodup →
      l.foldl (fun a i => if P i then a.erase i else a) acc
        = acc.filter (fun a => decide (¬ (P a ∧ a ∈ l))) := by
  intro l
  induction l with
  | nil =>
      intro acc _
      simp
  | cons x xs ih =>
      intro acc hacc
      rw [List.foldl_cons]
      by_cases hx : P x
      · rw [if_pos hx, ih _ (hacc.erase x), hacc.erase_eq_filter x,
          List.filter_filter]
        apply List.filter_congr
        intro a _
        by_cases hPa : P a
        · by_cases hax : a = x
          · subst hax
            simp [hPa]
          · simp [hPa, hax, List.mem_cons]
        · have hax : a ≠ x := fun h => hPa (h ▸ hx)
          simp [hPa, hax]
      · rw [if_neg hx, ih _ hacc]
        apply List.filter_congr
        intro a _
        by_cases hPa : P a
        · have hax : a ≠ x := fun h => hx (h ▸ hPa)
          simp [hPa, hax, List.mem_cons]
        · simp [hPa]

theorem nodup_bestFeaturesStep12 (pval : List ℚ) (t : ℚ) :
    (bestFeaturesStep12 pval t).Nodup := by
  unfold bestFeaturesStep12
  by_cases h :
      (List.range pval.length).filter (fun i => decide (pval.getD i 0 < t)) = []
  · simp only [h, if_pos]
    exact (List.nodup_range _).filter _
  · simp only [h, if_neg, ite_false]
    exact (List.nodup_range _).filter _

theorem selectBestFeatures_eq_filter (pval : List ℚ) (t : ℚ) (word : Nat → String)
    (stop : List String) :
    selectBestFeatures pval t word stop
      = (bestFeaturesStep12 pval t).filter
          (fun i => decide (¬ (word i ∈ stop ∧ pval.getD i 0 > t / 2))) := by
  unfold selectBestFeatures
  rw [foldl_erase_eq_filter (fun i => word i ∈ stop ∧ pval.getD i 0 > t / 2) _ _
    (nodup_bestFeaturesStep12 pval t)]
  apply List.filter_congr
  intro a ha
  simp [ha]

theorem mem_selectBestFeatures (pval : List ℚ) (t : ℚ) (word : Nat → String)
    (stop : List String) (i : Nat) :
    i ∈ selectBestFeatures pval t word stop ↔
      i ∈ bestFeaturesStep12 pval t ∧
        ¬ (word i ∈ stop ∧ pval.getD i 0 > t / 2) := by
  rw [selectBestFeatures_eq_filter]
  rw [List.mem_filter, decide_eq_true_eq]

theorem step12_of_nonempty (pval : List ℚ) (t : ℚ) (h : ∃ v ∈ pval, v < t) :
    bestFeaturesStep12 pval t
      = (List.range pval.length).filter (fun i => decide (pval.getD i 0 < t)) := by
  unfold bestFeaturesStep12
  obtain ⟨v, hv, hvt⟩ := h
  obtain ⟨j, hj, hjv⟩ := List.mem_iff_getElem.mp hv
  have hjmem : j ∈ (List.range pval.length).filter
      (fun i => decide (pval.getD i 0 < t)) := by
    refine mem_filter_range.mpr ⟨hj, ?_⟩
    rw [decide_eq_true_eq, getD_eq_get pval j hj]
    rw [List.get_eq_getElem, hjv]
    exact hvt
  simp only [List.ne_nil_of_mem hjmem, if_neg, ite_false]

theorem length_filter_mono {α : Type} {p q : α → Bool} :
    ∀ (l : List α), (∀ a ∈ l, p a = true → q a = true) →
      (l.filter p).length ≤ (l.filter q).length := by
  intro l
  induction l with
  | nil => intro _; simp
  | cons x xs ih =>
      intro h
      have hxs := ih (fun a ha hpa => h a (List.mem_cons_of_mem _ ha) hpa)
      by_cases hp : p x = true
      · have hq := h x (List.mem_cons_self _ _) hp
        simp only [List.filter_cons, hp, hq, if_pos, List.length_cons]
        omega
      · rw [List.filter_cons, if_neg hp]
        rw [List.filter_cons]
        by_cases hq : q x = true
        · rw [if_pos hq, List.length_cons]
          omega
        · rw [if_neg hq]
          exact hxs

theorem map_canonical_id {lex : List (String × List String)}
    (h : ∀ kv ∈ lex, setOfList kv.2 = kv.2) :
    lex.map (fun kv => (kv.1, setOfList kv.2)) = lex := by
  induction lex with
  | nil => rfl
  | cons kv rest ih =>
      have h1 := h kv (List.mem_cons_self _ _)
      rw [List.map_cons, h1, ih (fun a ha => h a (List.mem_cons_of_mem _ ha))]

theorem fit_on_empty (env : LangEnv) (chi2 : List (List ℚ) → List Nat → List ℚ)
    (idfOf : Nat → Nat → ℚ) (f : Featurizer) (ds : Dataset)
    (qs : List String) (y : List Nat)
    (hempty : ∀ q ∈ qs, String.join (env.tokenize q) = "") :
    Featurizer.fit env chi2 idfOf f ds qs y =
      ({ f with
          entity_utterances_to_feature_names :=
            some (computeLexicon env f.unknown_words_replacement_string ds) },
        none) := by
  have hcond : (qs.all fun q => String.join (env.tokenize q) == "") = true := by
    rw [List.all_eq_true]
    intro q hq
    exact beq_iff_eq.mpr (hempty q hq)
  unfold Featurizer.fit
  rw [hcond]
  rfl

theorem fit_state_lexicon (env : LangEnv) (chi2 : List (List ℚ) → List Nat → List ℚ)
    (idfOf : Nat → Nat → ℚ) (f : Featurizer) (ds : Dataset)
    (qs : List String) (y : List Nat) :
    (Featurizer.fit env chi2 idfOf f ds qs y).1.entity_utterances_to_feature_names
      = some (computeLexicon env f.unknown_words_replacement_string ds) := by
  unfold Featurizer.fit
  cases hcond : (qs.all fun q => String.join (env.tokenize q) == "") <;>
    simp [hcond]

theorem computeLexicon_key_ne_sentinel (env : LangEnv) (ds : Dataset) (s : String) :
    ∀ kv ∈ computeLexicon env (some s) ds, kv.1 ≠ s := by
  intro kv hkv
  by_cases hany : (normalizedLexicon env ds).any (fun kv => kv.1 == s) = true
  · have h : computeLexicon env (some s) ds
        = (normalizedLexicon env ds).filter (fun kv => !(kv.1 == s)) := by
      simp [computeLexicon, hany]
    rw [h] at hkv
    have h2 := (List.mem_filter.mp hkv).2
    simpa using h2
  · have h : computeLexicon env (some s) ds = normalizedLexicon env ds := by
      simp [computeLexicon, hany]
    rw [h] at hkv
    have h2 := List.any_eq_false.mp (Bool.eq_false_iff.mpr hany) kv hkv
    simpa using h2

/-! Claim theorems. -/

/-- C2: during fit, if no vocabulary column has a chi-squared p-value strictly
below pvalue_threshold, the selected index set before stop-word demotion is
exactly the set of column indices whose p-value equals the global minimum of
the p-value vector (all ties included). -/
theorem fallback_selects_argmin (pval : List ℚ) (t : ℚ) (hne : pval ≠ [])
    (hall : ∀ v ∈ pval, ¬ v < t) :
    ∀ i, i ∈ bestFeaturesStep12 pval t ↔
      (i < pval.length ∧ ∀ j, j < pval.length → pval.getD i 0 ≤ pval.getD j 0) := by
  intro i
  have hfe : (List.range pval.length).filter
      (fun i => decide (pval.getD i 0 < t)) = [] := by
    rw [List.filter_eq_nil_iff]
    intro a ha
    rw [List.mem_range] at ha
    simp only [decide_eq_true_eq]
    exact hall _ (getD_mem pval a ha)
  have hstep : bestFeaturesStep12 pval t
      = (List.range pval.length).filter
          (fun i => decide (pval.getD i 0 = listMin pval)) := by
    unfold bestFeaturesStep12
    rw [hfe]
    rfl
  rw [hstep, mem_filter_range, decide_eq_true_eq]
  constructor
  · rintro ⟨hi, heq⟩
    refine ⟨hi, fun j hj => ?_⟩
    rw [heq]
    exact listMin_le (getD_mem pval j hj)
  · rintro ⟨hi, hmin⟩
    refine ⟨hi, ?_⟩
    obtain ⟨k, hk, hkv⟩ := List.mem_iff_getElem.mp (listMin_mem hne)
    refine le_antisymm ?_ (listMin_le (getD_mem pval i hi))
    have := hmin k hk
    rw [getD_eq_get pval k hk, List.get_eq_getElem, hkv] at this
    exact this

/-- C2 witness: with p-values (1/2, 1/2) and threshold 1/4 no column is below
the threshold, and index 1 is selected exactly because it attains the global
minimum; the tie makes the fallback select both indices. -/
theorem fallback_selects_argmin_witness :
    (([(1 : ℚ)/2, 1/2] : List ℚ) ≠ [] ∧ ∀ v ∈ [(1 : ℚ)/2, 1/2], ¬ v < 1/4)
    ∧ (1 ∈ bestFeaturesStep12 [(1 : ℚ)/2, 1/2] (1/4) ↔
        (1 < ([(1 : ℚ)/2, 1/2] : List ℚ).length ∧ ∀ j, j < ([(1 : ℚ)/2, 1/2] : List ℚ).length →
          ([(1 : ℚ)/2, 1/2] : List ℚ).getD 1 0 ≤ ([(1 : ℚ)/2, 1/2] : List ℚ).getD j 0)) :=
  ⟨⟨by decide, by decide⟩,
    fallback_selects_argmin [(1 : ℚ)/2, 1/2] (1/4) (by decide) (by decide) 1⟩

/-- C3: an index selected in steps 1-2 whose vocabulary token is a stop word
survives the demotion pass exactly when its p-value is at most half the
threshold, and an index whose token is not a stop word is never removed by the
pass. -/
theorem stop_word_demotion (pval : List ℚ) (t : ℚ) (word : Nat → String)
    (stop : List String) (i : Nat) (hi : i ∈ bestFeaturesStep12 pval t) :
    (word i ∈ stop →
      (i ∈ selectBestFeatures pval t word stop ↔ ¬ pval.getD i 0 > t / 2))
    ∧ (word i ∉ stop → i ∈ selectBestFeatures pval t word stop) := by
  constructor
  · intro hw
    rw [mem_selectBestFeatures]
    constructor
    · rintro ⟨_, hnot⟩ hgt
      exact hnot ⟨hw, hgt⟩
    · intro hle
      exact ⟨hi, fun hand => hle hand.2⟩
  · intro hw
    rw [mem_selectBestFeatures]
    exact ⟨hi, fun hand => hw hand.1⟩

/-- C3 witness: with p-values (3/10, 1/2, 1/10) and threshold 2/5, index 0 is
selected in steps 1-2; its token is the stop word, its p-value 3/10 exceeds
2/5 / 2 = 1/5, and the theorem yields that it is demoted. -/
theorem stop_word_demotion_witness :
    0 ∈ bestFeaturesStep12 [(3 : ℚ)/10, 1/2, 1/10] (2/5)
    ∧ (((fun i => if i = 0 then "the" else "x") (0 : Nat) ∈ ["the"] →
        (0 ∈ selectBestFeatures [(3 : ℚ)/10, 1/2, 1/10] (2/5)
            (fun i => if i = 0 then "the" else "x") ["the"] ↔
          ¬ ([(3 : ℚ)/10, 1/2, 1/10] : List ℚ).getD 0 0 > (2/5 : ℚ) / 2))
      ∧ ((fun i => if i = 0 then "the" else "x") (0 : Nat) ∉ ["the"] →
        0 ∈ selectBestFeatures [(3 : ℚ)/10, 1/2, 1/10] (2/5)
          (fun i => if i = 0 then "the" else "x") ["the"])) :=
  ⟨by decide,
    stop_word_demotion [(3 : ℚ)/10, 1/2, 1/10] (2/5)
      (fun i => if i = 0 then "the" else "x") ["the"] 0 (by decide)⟩

/-- C8: for a fixed p-value vector and stop-word set, and thresholds t2 < t1
with at least one p-value strictly below t2 (so neither threshold takes the
fallback-on-empty branch), the selection computed with the smaller threshold
is no larger than the one computed with the larger threshold. -/
theorem selection_monotone (pval : List ℚ) (word : Nat → String)
    (stop : List String) (t1 t2 : ℚ) (hlt : t2 < t1)
    (hex : ∃ v ∈ pval, v < t2) :
    (selectBestFeatures pval t2 word stop).length
      ≤ (selectBestFeatures pval t1 word stop).length := by
  have hex1 : ∃ v ∈ pval, v < t1 := by
    obtain ⟨v, hv, hvt⟩ := hex
    exact ⟨v, hv, lt_trans hvt hlt⟩
  rw [selectBestFeatures_eq_filter, selectBestFeatures_eq_filter,
    step12_of_nonempty pval t2 hex, step12_of_nonempty pval t1 hex1,
    List.filter_filter, List.filter_filter]
  apply length_filter_mono
  intro a _ hpa
  rw [Bool.and_eq_true, decide_eq_true_eq, decide_eq_true_eq] at hpa ⊢
  obtain ⟨hnot, hlt2⟩ := hpa
  refine ⟨?_, lt_trans hlt2 hlt⟩
  intro hand
  apply hnot
  refine ⟨hand.1, ?_⟩
  have h12 : t2 / 2 < t1 / 2 := by linarith
  by_contra hle
  push_neg at hle
  exact absurd (lt_of_lt_of_le hand.2 hle) (by linarith)

/-- C8 witness: with p-values (1/10, 3/10) and thresholds 1/2 > 1/5 the
selection size at the smaller threshold is bounded by the one at the larger
threshold. -/
theorem selection_monotone_witness :
    ((1 : ℚ)/5 < 1/2 ∧ ∃ v ∈ [(1 : ℚ)/10, 3/10], v < 1/5)
    ∧ (selectBestFeatures [(1 : ℚ)/10, 3/10] (1/5) (fun _ => "x") ["the"]).length
        ≤ (selectBestFeatures [(1 : ℚ)/10, 3/10] (1/2) (fun _ => "x") ["the"]).length :=
  ⟨⟨by decide, by decide⟩,
    selection_monotone [(1 : ℚ)/10, 3/10] (fun _ => "x") ["the"] (1/2) (1/5)
      (by decide) (by decide)⟩

/-- C4: when every query tokenizes to an empty token join, fit returns the
None sentinel (not the instance, not an error) and leaves the vectorizer
untouched, so no vocabulary is built. -/
theorem empty_corpus_fit_returns_none (env : LangEnv)
    (chi2 : List (List ℚ) → List Nat → List ℚ) (idfOf : Nat → Nat → ℚ)
    (f : Featurizer) (ds : Dataset) (qs : List String) (y : List Nat)
    (hempty : ∀ q ∈ qs, String.join (env.tokenize q) = "") :
    (Featurizer.fit env chi2 idfOf f ds qs y).2 = none
    ∧ (Featurizer.fit env chi2 idfOf f ds qs y).1.tfidf_vectorizer
        = f.tfidf_vectorizer := by
  rw [fit_on_empty env chi2 idfOf f ds qs y hempty]
  exact ⟨rfl, rfl⟩

/-- C4 witness: fitting the concrete featurizer on the corpus of one empty and
one whitespace-only query returns the None sentinel and keeps the vectorizer
state. -/
theorem empty_corpus_fit_returns_none_witness :
    (∀ q ∈ ["", "  "], String.join (env0.tokenize q) = "")
    ∧ ((Featurizer.fit env0 (fun _ _ => []) (fun _ _ => 1) F0 ds0 ["", "  "] [0, 1]).2 = none
      ∧ (Featurizer.fit env0 (fun _ _ => []) (fun _ _ => 1) F0 ds0 ["", "  "] [0, 1]).1.tfidf_vectorizer
          = F0.tfidf_vectorizer) :=
  ⟨by decide,
    empty_corpus_fit_returns_none env0 (fun _ _ => []) (fun _ _ => 1) F0 ds0
      ["", "  "] [0, 1] (by decide)⟩

/-- C9: when every query tokenizes to an empty token join, fit_transform does
not produce a feature matrix: fit returns the None sentinel and the
unconditional transform call on it fails. -/
theorem empty_corpus_fit_transform_fails (env : LangEnv)
    (chi2 : List (List ℚ) → List Nat → List ℚ) (idfOf : Nat → Nat → ℚ)
    (f : Featurizer) (ds : Dataset) (qs : List String) (y : List Nat)
    (hempty : ∀ q ∈ qs, String.join (env.tokenize q) = "") :
    ∃ msg, Featurizer.fit_transform env chi2 idfOf f ds qs y
      = Except.error msg := by
  refine ⟨"AttributeError: NoneType object has no attribute transform", ?_⟩
  unfold Featurizer.fit_transform
  rw [fit_on_empty env chi2 idfOf f ds qs y hempty]

/-- C9 witness: fit_transform on the all-empty corpus yields an error. -/
theorem empty_corpus_fit_transform_fails_witness :
    (∀ q ∈ ["", "  "], String.join (env0.tokenize q) = "")
    ∧ ∃ msg, Featurizer.fit_transform env0 (fun _ _ => []) (fun _ _ => 1) F0 ds0
        ["", "  "] [0, 1] = Except.error msg :=
  ⟨by decide,
    empty_corpus_fit_transform_fails env0 (fun _ _ => []) (fun _ _ => 1) F0 ds0
      ["", "  "] [0, 1] (by decide)⟩

/-- C10: on the empty-corpus short circuit fit is not atomic: the entity
lexicon has already been replaced by the one derived from the new dataset,
while best_features, pvalue_threshold and the vectorizer state are unchanged,
and the sentinel None is returned. -/
theorem fit_not_atomic_on_empty_corpus (env : LangEnv)
    (chi2 : List (List ℚ) → List Nat → List ℚ) (idfOf : Nat → Nat → ℚ)
    (f : Featurizer) (ds : Dataset) (qs : List String) (y : List Nat)
    (hempty : ∀ q ∈ qs, String.join (env.tokenize q) = "") :
    (Featurizer.fit env chi2 idfOf f ds qs y).1.entity_utterances_to_feature_names
        = some (computeLexicon env f.unknown_words_replacement_string ds)
    ∧ (Featurizer.fit env chi2 idfOf f ds qs y).1.best_features = f.best_features
    ∧ (Featurizer.fit env chi2 idfOf f ds qs y).1.pvalue_threshold = f.pvalue_threshold
    ∧ (Featurizer.fit env chi2 idfOf f ds qs y).1.tfidf_vectorizer = f.tfidf_vectorizer
    ∧ (Featurizer.fit env chi2 idfOf f ds qs y).2 = none := by
  rw [fit_on_empty env chi2 idfOf f ds qs y hempty]
  exact ⟨rfl, rfl, rfl, rfl, rfl⟩

/-- C10 witness: the concrete empty-corpus fit call replaces the entity
lexicon, keeps the other fitted state and returns None. -/
theorem fit_not_atomic_on_empty_corpus_witness :
    (∀ q ∈ ["", "  "], String.join (env0.tokenize q) = "")
    ∧ ((Featurizer.fit env0 (fun _ _ => []) (fun _ _ => 1) F0 ds0 ["", "  "] [0, 1]).1.entity_utterances_to_feature_names
          = some (computeLexicon env0 F0.unknown_words_replacement_string ds0)
      ∧ (Featurizer.fit env0 (fun _ _ => []) (fun _ _ => 1) F0 ds0 ["", "  "] [0, 1]).1.best_features = F0.best_features
      ∧ (Featurizer.fit env0 (fun _ _ => []) (fun _ _ => 1) F0 ds0 ["", "  "] [0, 1]).1.pvalue_threshold = F0.pvalue_threshold
      ∧ (Featurizer.fit env0 (fun _ _ => []) (fun _ _ => 1) F0 ds0 ["", "  "] [0, 1]).1.tfidf_vectorizer = F0.tfidf_vectorizer
      ∧ (Featurizer.fit env0 (fun _ _ => []) (fun _ _ => 1) F0 ds0 ["", "  "] [0, 1]).2 = none) :=
  ⟨by decide,
    fit_not_atomic_on_empty_corpus env0 (fun _ _ => []) (fun _ _ => 1) F0 ds0
      ["", "  "] [0, 1] (by decide)⟩

/-- C6: with a non-null unknown-words sentinel, the entity lexicon held by the
instance after fit contains no key equal to the sentinel, whatever the dataset
maps to it. -/
theorem unknown_sentinel_excluded (env : LangEnv)
    (chi2 : List (List ℚ) → List Nat → List ℚ) (idfOf : Nat → Nat → ℚ)
    (f : Featurizer) (ds : Dataset) (qs : List String) (y : List Nat)
    (s : String) (hs : f.unknown_words_replacement_string = some s) :
    ∀ kv ∈ ((Featurizer.fit env chi2 idfOf f ds qs y).1.entity_utterances_to_feature_names.getD []),
      kv.1 ≠ s := by
  intro kv hkv
  rw [fit_state_lexicon, hs, Option.getD_some] at hkv
  exact computeLexicon_key_ne_sentinel env ds s kv hkv

/-- C6 witness: the concrete dataset maps the literal "unknownword" to an
entity feature, the featurizer uses that very string as its sentinel, and the
lexicon after fit carries no such key. -/
theorem unknown_sentinel_excluded_witness :
    F0.unknown_words_replacement_string = some "unknownword"
    ∧ ∀ kv ∈ ((Featurizer.fit env0 (fun _ _ => []) (fun _ _ => 1) F0 ds0 ["go"] [0]).1.entity_utterances_to_feature_names.getD []),
        kv.1 ≠ "unknownword" :=
  ⟨rfl,
    unknown_sentinel_excluded env0 (fun _ _ => []) (fun _ _ => 1) F0 ds0 ["go"] [0]
      "unknownword" rfl⟩

/-- C5 counterexample: a snapshot with every required key present, a two-entry
vocabulary and a single IDF weight is not rejected: from_dict returns an
instance whose vocabulary size is 2 while its IDF weight count is 1. -/
theorem from_dict_mismatch_not_rejected :
    ∃ F, Featurizer.from_dict badSnapshot = Except.ok F
      ∧ F.tfidf_vectorizer.map (fun vi => vi.1.length) = some 2
      ∧ F.tfidf_vectorizer.map (fun vi => vi.2.length) = some 1 :=
  ⟨_, rfl, rfl, rfl⟩

/-- C5 amended: from_dict fails on every snapshot missing a required key
(language_code, config, tfidf_vectorizer with its vocab entry,
entity_utterances_to_feature_names, pvalue_threshold, best_features,
unknown_words_replacement_string); it performs no cardinality validation, so a
snapshot whose vocabulary and IDF sequence have mismatched lengths is
reconstructed anyway. -/
theorem from_dict_requires_all_keys (d : SnapshotDict) (F : Featurizer)
    (h : Featurizer.from_dict d = Except.ok F) :
    d.language_code.isSome = true ∧ d.config.isSome = true
    ∧ (∃ tv, d.tfidf_vectorizer = some tv ∧ tv.vocab.isSome = true)
    ∧ d.entity_utterances_to_feature_names.isSome = true
    ∧ d.pvalue_threshold.isSome = true ∧ d.best_features.isSome = true
    ∧ d.unknown_words_replacement_string.isSome = true := by
  obtain ⟨lc, tvo, bfo, pvo, lexo, cfgo, unko⟩ := d
  cases lc with
  | none => exact Except.noConfusion h
  | some language =>
  cases cfgo with
  | none => exact Except.noConfusion h
  | some config =>
  cases tvo with
  | none => exact Except.noConfusion h
  | some tv =>
  obtain ⟨voc, idfd⟩ := tv
  cases voc with
  | none => exact Except.noConfusion h
  | some vocField =>
  cases lexo with
  | none =>
      cases vocField with
      | none => exact Except.noConfusion h
      | some vocab =>
          cases idfd with
          | none => exact Except.noConfusion h
          | some idfField =>
              cases idfField with
              | none => exact Except.noConfusion h
              | some idf => exact Except.noConfusion h
  | some lexRaw =>
  cases pvo with
  | none =>
      cases vocField with
      | none => exact Except.noConfusion h
      | some vocab =>
          cases idfd with
          | none => exact Except.noConfusion h
          | some idfField =>
              cases idfField with
              | none => exact Except.noConfusion h
              | some idf => exact Except.noConfusion h
  | some pv =>
  cases bfo with
  | none =>
      cases vocField with
      | none => exact Except.noConfusion h
      | some vocab =>
          cases idfd with
          | none => exact Except.noConfusion h
          | some idfField =>
              cases idfField with
              | none => exact Except.noConfusion h
              | some idf => exact Except.noConfusion h
  | some bf =>
  cases unko with
  | none =>
      cases vocField with
      | none => exact Except.noConfusion h
      | some vocab =>
          cases idfd with
          | none => exact Except.noConfusion h
          | some idfField =>
              cases idfField with
              | none => exact Except.noConfusion h
              | some idf => exact Except.noConfusion h
  | some unk =>
  exact ⟨rfl, rfl, ⟨⟨some vocField, idfd⟩, rfl, rfl⟩, rfl, rfl, rfl, rfl⟩

/-- C5 amended witness: the concrete full snapshot deserializes, so every
required key is reported present. -/
theorem from_dict_requires_all_keys_witness :
    badSnapshot.language_code.isSome = true ∧ badSnapshot.config.isSome = true
    ∧ (∃ tv, badSnapshot.tfidf_vectorizer = some tv ∧ tv.vocab.isSome = true)
    ∧ badSnapshot.entity_utterances_to_feature_names.isSome = true
    ∧ badSnapshot.pvalue_threshold.isSome = true
    ∧ badSnapshot.best_features.isSome = true
    ∧ badSnapshot.unknown_words_replacement_string.isSome = true :=
  from_dict_requires_all_keys badSnapshot _ rfl

/-- C7: the preprocessed representation of a query is exactly the
default-separator join of the normalized-then-stemmed tokens, then a sorted
space-joined entity-feature block from n-gram lookup of the normalized+stemmed
tokens (only when non-empty), then a sorted space-joined word-cluster block
from lowercased n-gram lookup of the raw tokens (only when non-empty). -/
theorem preprocess_query_structure (env : LangEnv)
    (lex : List (String × List String)) (q : String) :
    preprocessQuery env lex q = preprocessQuerySpec env lex q := by
  unfold preprocessQuery preprocessQuerySpec joinBlock getWordClusterFeatures
    getDatasetEntitiesFeatures
  rfl

/-- C1: reconstructing a fitted Featurizer from its serialized snapshot with
from_dict after to_dict succeeds and yields an instance whose transform output
is element-wise identical to the original on every utterance list.  The
canonical-set hypothesis states that the lexicon value lists represent Python
sets (sorted, duplicate-free). -/
theorem serialization_roundtrip (env : LangEnv) (F : Featurizer)
    (hfit : F.tfidf_vectorizer ≠ none)
    (hlex : F.entity_utterances_to_feature_names ≠ none)
    (hcanon : ∀ kv ∈ F.entity_utterances_to_feature_names.getD [],
      setOfList kv.2 = kv.2) :
    ∃ s F', F.to_dict = some s ∧ Featurizer.from_dict s = Except.ok F'
      ∧ ∀ queries : List String,
          F'.transform env queries = F.transform env queries := by
  obtain ⟨lang, cfg, tfo, bfo, pv, lexo, unk⟩ := F
  cases tfo with
  | none => exact absurd rfl hfit
  | some vi =>
  cases lexo with
  | none => exact absurd rfl hlex
  | some lex =>
  rw [Option.getD_some] at hcanon
  have hmap : lex.map (fun kv => (kv.1, setOfList kv.2)) = lex :=
    map_canonical_id hcanon
  have h1 : Featurizer.from_dict
      { language_code := some lang,
        tfidf_vectorizer := some ⟨some (some vi.1), some (some vi.2)⟩,
        best_features := some bfo,
        pvalue_threshold := some pv,
        entity_utterances_to_feature_names := some lex,
        config := some cfg,
        unknown_words_replacement_string := some unk }
      = Except.ok
        { language := lang,
          config := cfg,
          tfidf_vectorizer := some (vi.1, vi.2),
          best_features := bfo,
          pvalue_threshold := pv,
          entity_utterances_to_feature_names :=
            some (lex.map (fun kv => (kv.1, setOfList kv.2))),
          unknown_words_replacement_string := unk } := rfl
  rw [hmap] at h1
  exact ⟨_, _, rfl, h1, fun queries => rfl⟩

/-- C1 witness: the concrete fitted featurizer round-trips through to_dict and
from_dict with identical transform behavior. -/
theorem serialization_roundtrip_witness :
    (F0.tfidf_vectorizer ≠ none ∧ F0.entity_utterances_to_feature_names ≠ none
      ∧ ∀ kv ∈ F0.entity_utterances_to_feature_names.getD [],
          setOfList kv.2 = kv.2)
    ∧ ∃ s F', F0.to_dict = some s ∧ Featurizer.from_dict s = Except.ok F'
        ∧ ∀ queries : List String,
            F'.transform env0 queries = F0.transform env0 queries :=
  ⟨⟨by decide, by decide, by decide⟩,
    serialization_roundtrip env0 F0 (by decide) (by decide) (by decide)⟩

end Snips
